import Mathlib

/-!
# Time to Shop — verification of the scoring pipeline

Shallow embedding of the customer-scoring pipeline:
* `src/time_to_shop/core/constants.py`  — feature set, fill values, decile bins/labels
* `src/time_to_shop/core/data_loader.py` — cleaning (`_fill_missing_values`,
  `_fix_negative_values`, `_convert_data_types`, `_preprocess_data`)
* `src/time_to_shop/models/predictor.py` — `PurchasePredictor.predict`
* `scorer.py` — the legacy `data_upload` cleaning and `extratrees_predict`

A pandas DataFrame is modelled column-wise: a list of (column name, cells),
where a cell is `Option ℚ` (`none` = NaN / missing).  Floating point numbers
are modelled as rationals; the decimal literals of the source are exact
rationals here, and every comparison the code performs on them coincides with
the float comparison at the values involved.
-/

namespace TimeToShop

/-- A cell of a DataFrame: `none` models NaN / a missing value. -/
abbrev Cell := Option ℚ

/-- Column-oriented model of a pandas DataFrame: each entry is
(column name, list of cells).  Rows are positions inside the cell lists. -/
structure DataFrame where
  cols : List (String × List Cell)
deriving DecidableEq

/-- `name in df.columns`. -/
def hasCol (df : DataFrame) (name : String) : Bool :=
  df.cols.any (fun c => c.1 == name)

/-- `df[name]` — the cells of the first column called `name`
(`none` when the column is absent, which pandas reports as a KeyError). -/
def getCol (df : DataFrame) (name : String) : Option (List Cell) :=
  (df.cols.find? (fun c => c.1 == name)).map (fun c => c.2)

/-- `len(df)`: the length of the first column (0 for an empty frame). -/
def nRows (df : DataFrame) : ℕ :=
  match df.cols with
  | [] => 0
  | c :: _ => c.2.length

/-- Character-list test: does `p` occur at the head of `s`? -/
def isPre : List Char → List Char → Bool
  | [], _ => true
  | _ :: _, [] => false
  | a :: as, b :: bs => a == b && isPre as bs

/-- Character-list substring test. -/
def subOf (p : List Char) : List Char → Bool
  | [] => p.isEmpty
  | c :: rest => isPre p (c :: rest) || subOf p rest

/-- Python's `pat in s` on strings. -/
def strContains (s pat : String) : Bool :=
  subOf pat.data s.data

/-! ## Constants — `core/constants.py` -/

/-- `FEATURE_COLUMNS`: the 14 features fed to the classifier. -/
def FEATURE_COLUMNS : List String :=
  ["SALES_6M", "FREQUENCY_6M", "BUYS_Q_03", "COUPON_Q_03",
   "PH_MREDEEM90D", "PH_PFREQ90D", "PH_CFREQ90D",
   "BBB_INSTORE_RFM_DECILE", "BBB_ECOM_R_DECILE",
   "BBB_OFFCOUPON_RFM_DECILE", "NUM_PERIODS", "NUM_PRODUCT_GROUPS",
   "PRESENCE_OF_CHILD", "MARITAL_STAT"]

/-- `KEY_COLUMNS`. -/
def KEY_COLUMNS : List String := ["CUSTOMER_ID", "ADDRESS_ID"]

/-- `INT_COLUMNS`. -/
def INT_COLUMNS : List String :=
  ["SALES_6M", "COUPON_EXPENSE_6M", "BUYS_Q_03", "COUPON_Q_03",
   "PH_MREDEEM90D", "PH_PFREQ90D", "PH_CFREQ90D",
   "BBB_INSTORE_RFM_DECILE", "BBB_ECOM_R_DECILE",
   "BBB_OFFCOUPON_RFM_DECILE", "PCT_TXNS_ON_MKD_DISC"]

def FILL_VALUE_DECILE : ℚ := 11
def FILL_VALUE_RECENCY : ℚ := 366
def FILL_VALUE_DEFAULT : ℚ := 0

/-- `DECILE_BINS`: the 11 ascending probability bin edges. -/
def DECILE_BINS : List ℚ :=
  [0.00, 0.19662877, 0.21054794, 0.25123934, 0.26712146,
   0.42682036, 0.493293, 0.59348687, 0.67486295, 0.77079006, 1.0]

/-- `DECILE_LABELS = ['10', '9', ..., '1']`, here already as the integers the
pipeline later casts them to (`output['DECILE'].astype(int)`).  `pd.cut`
attaches these labels to the bins in ascending bin order. -/
def DECILE_LABELS : List ℕ := [10, 9, 8, 7, 6, 5, 4, 3, 2, 1]

/-! ## Cleaning — `core/data_loader.py` -/

/-- The fill value `DataLoader._fill_missing_values` chooses for a column:
`if 'DECILE' in col: 11 elif '_R' in col and 'DECILE' not in col: 366 else: 0`. -/
def fillValueFor (col : String) : ℚ :=
  if strContains col "DECILE" then FILL_VALUE_DECILE
  else if strContains col "_R" && !(strContains col "DECILE") then FILL_VALUE_RECENCY
  else FILL_VALUE_DEFAULT

/-- `series.fillna(v)` on one cell. -/
def fillnaCell (v : ℚ) : Cell → Cell
  | none => some v
  | some x => some x

/-- `DataLoader._fill_missing_values`: per-column fillna with the value chosen
by the column's name. -/
def fillMissingValues (df : DataFrame) : DataFrame :=
  ⟨df.cols.map (fun col => (col.1, col.2.map (fillnaCell (fillValueFor col.1))))⟩

/-- `df.loc[df[c] < 0, c] = 0` on one cell: a NaN compares false, so it is
left alone; a negative value becomes 0. -/
def clampNegCell : Cell → Cell
  | none => none
  | some x => some (if x < 0 then 0 else x)

/-- `DataLoader._fix_negative_values`: clamps negatives in `SALES_6M` and
`COUPON_EXPENSE_6M` when those columns are present (mapping by name makes the
presence test implicit), touching no other column. -/
def fixNegativeValues (df : DataFrame) : DataFrame :=
  ⟨df.cols.map (fun col =>
    if col.1 == "SALES_6M" || col.1 == "COUPON_EXPENSE_6M"
    then (col.1, col.2.map clampNegCell) else col)⟩

/-- numpy's `astype(int)` on a float: truncation toward zero. -/
def truncQ (x : ℚ) : ℤ := if 0 ≤ x then ⌊x⌋ else ⌈x⌉

/-- `astype('int')` on one cell. -/
def astypeIntCell : Cell → Cell
  | none => none
  | some x => some ((truncQ x : ℤ) : ℚ)

/-- `astype("object")` on one cell: the value is boxed, not changed. -/
def astypeObjectCell : Cell → Cell := fun c => c

/-- `DataLoader._convert_data_types`: key columns to object, `INT_COLUMNS` to
int, each guarded by column presence (implicit in the by-name mapping). -/
def convertDataTypes (df : DataFrame) : DataFrame :=
  let keyed : DataFrame :=
    ⟨df.cols.map (fun col =>
      if KEY_COLUMNS.contains col.1
      then (col.1, col.2.map astypeObjectCell) else col)⟩
  ⟨keyed.cols.map (fun col =>
    if INT_COLUMNS.contains col.1
    then (col.1, col.2.map astypeIntCell) else col)⟩

/-- `DataLoader._preprocess_data`: copy, fill missing values, fix negative
values, convert data types.  The `df.copy()` is value semantics here; the
heap-level frame property is proved separately on `preprocessProc`. -/
def preprocessData (df : DataFrame) : DataFrame :=
  convertDataTypes (fixNegativeValues (fillMissingValues df))

/-! ## Decile assignment — `pd.cut(P, bins=DECILE_BINS, labels=DECILE_LABELS)`

With pandas defaults (`right=True`, `include_lowest=False`), a value `x` lands
in bin `i` iff `bins[i] < x ≤ bins[i+1]`, and gets `labels[i]`; a value in no
bin becomes NaN (`none`). -/

def pdCutGo : List ℚ → List ℕ → ℚ → Option ℕ
  | lo :: hi :: bins, lab :: labs, x =>
      if lo < x ∧ x ≤ hi then some lab else pdCutGo (hi :: bins) labs x
  | _, _, _ => none

/-- The decile the predictor attaches to a probability. -/
def assignDecile (p : ℚ) : Option ℕ :=
  pdCutGo DECILE_BINS DECILE_LABELS p

/-! ## Prediction — `models/predictor.py` -/

/-- The frozen classifier, abstracted to its `predict_proba` interface: for a
batch of feature rows it returns, per row, the (negative-class,
positive-class) probability pair. -/
structure Model where
  predictProba : List (List Cell) → List (ℚ × ℚ)

/-- `PurchasePredictor`: holds the optional loaded model (`self.model`). -/
structure PurchasePredictor where
  model : Option Model

/-- The exceptions `predict` can raise: the two `ValueError`s of the source
and the pandas `KeyError` from `data[...]` on an absent column. -/
inductive PredictError
  | modelNotLoaded
  | missingFeatures (missing : List String)
  | keyError (col : String)
deriving DecidableEq

/-- `data[FEATURE_COLUMNS]` read row-wise: row `i` is the 14 feature cells. -/
def featureMatrix (df : DataFrame) : List (List Cell) :=
  (List.range (nRows df)).map (fun i =>
    FEATURE_COLUMNS.map (fun c => ((getCol df c).getD []).getD i none))

/-- `PurchasePredictor.predict`: model check, then feature check, then
`predict_proba`, keep the positive-class column, and assemble the output frame
with the decile column from `pd.cut`. -/
def predict (pred : PurchasePredictor) (data : DataFrame) :
    Except PredictError DataFrame :=
  match pred.model with
  | none => Except.error PredictError.modelNotLoaded
  | some m =>
    let missing := FEATURE_COLUMNS.filter (fun c => !(hasCol data c))
    if missing ≠ [] then Except.error (PredictError.missingFeatures missing)
    else
      match getCol data "CUSTOMER_ID", getCol data "PREVIOUS_PURCHASE" with
      | some cid, some pp =>
        let probabilities := m.predictProba (featureMatrix data)
        let prob1 := probabilities.map Prod.snd
        Except.ok ⟨[("CUSTOMER_ID", cid),
                    ("PREVIOUS_PURCHASE", pp),
                    ("P", prob1.map some),
                    ("DECILE", prob1.map (fun p =>
                      (assignDecile p).map (fun l => ((l : ℕ) : ℚ))))]⟩
      | none, _ => Except.error (PredictError.keyError "CUSTOMER_ID")
      | _, none => Except.error (PredictError.keyError "PREVIOUS_PURCHASE")

/-- Is a predict result a success? -/
def isOk : Except PredictError DataFrame → Bool
  | Except.ok _ => true
  | Except.error _ => false

/-- The frame a successful predict produced (empty frame on error). -/
def outOf : Except PredictError DataFrame → DataFrame
  | Except.ok d => d
  | Except.error _ => ⟨[]⟩

/-! ## Heap model for the in-place cleaning steps

`_fill_missing_values`, `_fix_negative_values` and `_convert_data_types`
mutate their argument (`fillna(..., inplace=True)`, `df.loc[...] = 0`,
`df[col] = ...`); `_preprocess_data` shields its caller with `df = df.copy()`.
We model the mutable store as a list of frames addressed by index. -/

/-- Run `_fill_missing_values` in place on the frame at `r`. -/
def fillIP (h : List DataFrame) (r : ℕ) : List DataFrame :=
  h.set r (fillMissingValues (h.getD r ⟨[]⟩))

/-- Run `_fix_negative_values` in place on the frame at `r`. -/
def fixIP (h : List DataFrame) (r : ℕ) : List DataFrame :=
  h.set r (fixNegativeValues (h.getD r ⟨[]⟩))

/-- Run `_convert_data_types` in place on the frame at `r`. -/
def convIP (h : List DataFrame) (r : ℕ) : List DataFrame :=
  h.set r (convertDataTypes (h.getD r ⟨[]⟩))

/-- `_preprocess_data` as a store transformer: allocate `df.copy()` at a fresh
index, run the three in-place steps on the copy, return the new store and the
index of the result. -/
def preprocessProc (h : List DataFrame) (r : ℕ) : List DataFrame × ℕ :=
  let r1 := h.length
  let h1 := h ++ [h.getD r ⟨[]⟩]
  let h2 := fillIP h1 r1
  let h3 := fixIP h2 r1
  let h4 := convIP h3 r1
  (h4, r1)

end TimeToShop

/-! ## Legacy pipeline — `scorer.py` -/

namespace Scorer

open TimeToShop

/-- The fill value chosen by the loop in `data_upload`:
`if 'DECILE' in col: 11 elif '_R' in col and 'DECILE' not in col: 366 else: 0`. -/
def legacyFillValueFor (col : String) : ℚ :=
  if strContains col "DECILE" then 11
  else if strContains col "_R" && !(strContains col "DECILE") then 366
  else 0

/-- `key = ['CUSTOMER_ID', 'ADDRESS_ID']`. -/
def key : List String := ["CUSTOMER_ID", "ADDRESS_ID"]

/-- `key1`: the columns `data_upload` casts with `astype('int')`. -/
def key1 : List String :=
  ["SALES_6M", "COUPON_EXPENSE_6M", "BUYS_Q_03", "COUPON_Q_03",
   "PH_MREDEEM90D", "PH_PFREQ90D", "PH_CFREQ90D",
   "BBB_INSTORE_RFM_DECILE", "BBB_ECOM_R_DECILE",
   "BBB_OFFCOUPON_RFM_DECILE", "PCT_TXNS_ON_MKD_DISC"]

/-- The cleaning part of `data_upload` (after the BigQuery read): the fillna
loop, the two unconditional negative-value clamps (`data.SALES_6M...`,
`data.COUPON_EXPENSE_6M...` — an `AttributeError` if the column is absent),
then `data[key].astype("object")` and `data[key1].astype('int')` (a pandas
`KeyError` if any of those columns is absent).  `none` models the raised
exception. -/
def legacyClean (data : DataFrame) : Option DataFrame :=
  let filled : DataFrame :=
    ⟨data.cols.map (fun col =>
      (col.1, col.2.map (fillnaCell (legacyFillValueFor col.1))))⟩
  if hasCol filled "SALES_6M" && hasCol filled "COUPON_EXPENSE_6M" then
    let clamped : DataFrame :=
      ⟨filled.cols.map (fun col =>
        if col.1 == "SALES_6M" || col.1 == "COUPON_EXPENSE_6M"
        then (col.1, col.2.map clampNegCell) else col)⟩
    if (key ++ key1).all (hasCol clamped) then
      let keyed : DataFrame :=
        ⟨clamped.cols.map (fun col =>
          if key.contains col.1
          then (col.1, col.2.map astypeObjectCell) else col)⟩
      some ⟨keyed.cols.map (fun col =>
        if key1.contains col.1
        then (col.1, col.2.map astypeIntCell) else col)⟩
    else none
  else none

end Scorer

namespace TimeToShop

/-! ## Helper lemmas -/

theorem DataFrame.ext' {a b : DataFrame} (h : a.cols = b.cols) : a = b := by
  cases a; cases b; cases h; rfl

theorem fillnaCell_getD (v : ℚ) (c : Cell) : fillnaCell v c = some (c.getD v) := by
  cases c <;> rfl

theorem fillnaCell_isSome (v : ℚ) (c : Cell) : (fillnaCell v c).isSome = true := by
  cases c <;> rfl

theorem clampNegCell_map (c : Cell) :
    clampNegCell c = c.map (fun x => if x < 0 then 0 else x) := by
  cases c <;> rfl

theorem fillValueFor_cascade (s : String) :
    fillValueFor s =
      (if strContains s "DECILE" then 11
       else if strContains s "_R" then 366 else 0) := by
  unfold fillValueFor
  cases hd : strContains s "DECILE" <;>
    simp [hd, FILL_VALUE_DECILE, FILL_VALUE_RECENCY, FILL_VALUE_DEFAULT]

theorem truncQ_intCast (z : ℤ) : truncQ (z : ℚ) = z := by
  unfold truncQ
  split_ifs <;> simp

theorem truncQ_nonneg {x : ℚ} (h : 0 ≤ x) : 0 ≤ truncQ x := by
  unfold truncQ
  rw [if_pos h]
  exact Int.floor_nonneg.mpr h

/-- The per-cell effect of `_fix_negative_values` on a column called `n`. -/
def fixCell (n : String) : Cell → Cell :=
  if n == "SALES_6M" || n == "COUPON_EXPENSE_6M" then clampNegCell else fun c => c

/-- The per-cell effect of `_convert_data_types` on a column called `n`
(the `astype("object")` of the key columns leaves cell values unchanged). -/
def convCell (n : String) : Cell → Cell :=
  if INT_COLUMNS.contains n then astypeIntCell else fun c => c

/-- The per-cell effect of the whole cleaning pass on a column called `n`. -/
def cleanCell (n : String) (c : Cell) : Cell :=
  convCell n (fixCell n (fillnaCell (fillValueFor n) c))

theorem astypeObject_col_id (col : String × List Cell) :
    (if KEY_COLUMNS.contains col.1
     then (col.1, col.2.map astypeObjectCell) else col) = col := by
  split_ifs with h
  · cases col with
    | mk n cs => exact congrArg (Prod.mk n) (List.map_id' cs)
  · rfl

/-- Normal form of the cleaning pass: column names are kept, and every cell is
transformed by `cleanCell` of its column's name. -/
theorem preprocessData_cols (df : DataFrame) :
    (preprocessData df).cols
      = df.cols.map (fun col => (col.1, col.2.map (cleanCell col.1))) := by
  unfold preprocessData convertDataTypes fixNegativeValues fillMissingValues
  simp only [List.map_map]
  apply List.map_congr_left
  intro col _
  obtain ⟨n, cs⟩ := col
  simp only [Function.comp, astypeObject_col_id]
  cases hd : (n == "SALES_6M" || n == "COUPON_EXPENSE_6M") <;>
    by_cases hi : n ∈ INT_COLUMNS <;>
      simp [hd, hi, cleanCell, convCell, fixCell, List.map_map, Function.comp]

theorem clamp_nonneg (a : ℚ) : 0 ≤ if a < 0 then (0 : ℚ) else a := by
  split_ifs with h
  · exact le_refl 0
  · exact not_lt.1 h

theorem cleanCell_isSome (n : String) (c : Cell) : (cleanCell n c).isSome = true := by
  unfold cleanCell convCell fixCell
  split_ifs <;> cases c <;> simp [fillnaCell, clampNegCell, astypeIntCell]

/-- A cleaned cell of a monetary column is a non-negative value. -/
theorem cleanCell_monetary_nonneg (n : String) (c : Cell)
    (hn : (n == "SALES_6M" || n == "COUPON_EXPENSE_6M") = true) :
    ∀ x, cleanCell n c = some x → 0 ≤ x := by
  unfold cleanCell convCell fixCell
  rw [if_pos hn, fillnaCell_getD]
  set a := c.getD (fillValueFor n) with ha
  split_ifs with hi
  · intro x hx
    simp only [clampNegCell, astypeIntCell, Option.some.injEq] at hx
    subst hx
    exact Int.cast_nonneg.mpr (truncQ_nonneg (clamp_nonneg a))
  · intro x hx
    simp only [clampNegCell, Option.some.injEq] at hx
    subst hx
    exact clamp_nonneg a

theorem cleanCell_idem (n : String) (c : Cell) :
    cleanCell n (cleanCell n c) = cleanCell n c := by
  have h0 : 0 ≤ (if c.getD (fillValueFor n) < 0 then (0 : ℚ)
                 else c.getD (fillValueFor n)) := clamp_nonneg _
  by_cases hi : n ∈ INT_COLUMNS <;>
    by_cases hd : (n = "SALES_6M" ∨ n = "COUPON_EXPENSE_6M") <;>
      simp [cleanCell, convCell, fixCell, hi, hd,
        fillnaCell_getD, clampNegCell, astypeIntCell]
  · rw [if_neg (not_lt.2 (truncQ_nonneg h0)), truncQ_intCast]
  · rw [truncQ_intCast]
  · intro h
    exact absurd h (not_lt.2 h0)

/-- A per-column transformation that keeps column names keeps `hasCol`. -/
theorem hasCol_map (cols : List (String × List Cell))
    (F : String × List Cell → String × List Cell)
    (hF : ∀ col, (F col).1 = col.1) (n : String) :
    hasCol ⟨cols.map F⟩ n = hasCol ⟨cols⟩ n := by
  unfold hasCol
  rw [List.any_map]
  congr 1
  funext col
  simp [Function.comp, hF]

theorem getCol_mem {df : DataFrame} {n : String} {cs : List Cell}
    (h : getCol df n = some cs) : (n, cs) ∈ df.cols := by
  unfold getCol at h
  cases hf : df.cols.find? (fun c => c.1 == n) with
  | none => rw [hf] at h; cases h
  | some col =>
    rw [hf] at h
    have hm := List.mem_of_find?_eq_some hf
    have hp := List.find?_some hf
    cases h
    cases col with
    | mk n' cs' =>
      have : n' = n := by simpa using hp
      subst this
      exact hm

/-! ## Claim theorems -/

/-- C8: the cleaning stage is idempotent: applying `_preprocess_data` to the
output of one cleaning pass yields output identical to its input. -/
theorem preprocessData_idempotent (df : DataFrame) :
    preprocessData (preprocessData df) = preprocessData df := by
  apply DataFrame.ext'
  rw [preprocessData_cols (preprocessData df), preprocessData_cols df, List.map_map]
  apply List.map_congr_left
  intro col _
  simp only [Function.comp, List.map_map]
  refine congrArg (Prod.mk col.1) ?_
  apply List.map_congr_left
  intro c _
  exact cleanCell_idem col.1 c

/-- C3: `_fill_missing_values` fills the missing cells of every column by the
priority order on the column name — a name containing "DECILE" is filled with
11, otherwise a name containing "_R" is filled with 366, otherwise with 0 —
and leaves present values alone; a missing `BBB_INSTORE_RFM_DECILE` cell is
cleaned to 11 (not 0); after the cleaning pass no column contains a missing
value. -/
theorem fillMissing_policy (df : DataFrame) :
    List.Forall₂ (fun (i o : String × List Cell) =>
        o.1 = i.1 ∧
        o.2 = i.2.map (fun c => some (c.getD
          (if strContains i.1 "DECILE" then 11
           else if strContains i.1 "_R" then 366 else 0))))
      df.cols (fillMissingValues df).cols
    ∧ (∀ col ∈ (preprocessData df).cols, ∀ c ∈ col.2, c.isSome = true)
    ∧ (fillnaCell (fillValueFor "BBB_INSTORE_RFM_DECILE") none = some 11
        ∧ (11 : ℚ) ≠ 0) := by
  refine ⟨?_, ?_, ?_, by norm_num⟩
  · unfold fillMissingValues
    rw [List.forall₂_map_right_iff, List.forall₂_same]
    intro col _
    refine ⟨rfl, ?_⟩
    apply List.map_congr_left
    intro c _
    rw [fillnaCell_getD, fillValueFor_cascade]
  · intro col hcol c hc
    rw [preprocessData_cols] at hcol
    obtain ⟨col0, _, rfl⟩ := List.mem_map.1 hcol
    simp only at hc
    obtain ⟨c0, _, rfl⟩ := List.mem_map.1 hc
    exact cleanCell_isSome _ _
  · with_unfolding_all rfl

/-- C4: `_fix_negative_values` clamps every negative value of the designated
monetary columns `SALES_6M` and `COUPON_EXPENSE_6M` to 0 and changes no other
column; on SALES_6M values [100, -50, 250, 0, 400] it yields
[100, 0, 250, 0, 400]; after the cleaning pass the designated columns contain
no negative value. -/
theorem fixNegative_clamp (df : DataFrame) :
    List.Forall₂ (fun (i o : String × List Cell) =>
        o.1 = i.1 ∧
        ((i.1 = "SALES_6M" ∨ i.1 = "COUPON_EXPENSE_6M") →
            o.2 = i.2.map (fun c => c.map (fun x => if x < 0 then 0 else x))) ∧
        ((i.1 ≠ "SALES_6M" ∧ i.1 ≠ "COUPON_EXPENSE_6M") → o = i))
      df.cols (fixNegativeValues df).cols
    ∧ (∀ col ∈ (preprocessData df).cols,
        (col.1 = "SALES_6M" ∨ col.1 = "COUPON_EXPENSE_6M") →
        ∀ c ∈ col.2, ∀ x, c = some x → 0 ≤ x)
    ∧ fixNegativeValues ⟨[("SALES_6M",
          [some 100, some (-50), some 250, some 0, some 400])]⟩
        = ⟨[("SALES_6M", [some 100, some 0, some 250, some 0, some 400])]⟩ := by
  refine ⟨?_, ?_, ?_⟩
  · unfold fixNegativeValues
    rw [List.forall₂_map_right_iff, List.forall₂_same]
    intro col _
    obtain ⟨n, cs⟩ := col
    by_cases hd : (n = "SALES_6M" ∨ n = "COUPON_EXPENSE_6M")
    · have hb : (n == "SALES_6M" || n == "COUPON_EXPENSE_6M") = true := by
        rcases hd with h | h <;> simp [h]
      rw [if_pos hb]
      refine ⟨rfl, fun _ => ?_, ?_⟩
      · apply List.map_congr_left
        intro c _
        exact clampNegCell_map c
      · rintro ⟨h1, h2⟩
        rcases hd with h | h
        · exact absurd h h1
        · exact absurd h h2
    · have hb : ¬((n == "SALES_6M" || n == "COUPON_EXPENSE_6M") = true) := by
        push_neg at hd
        simp [hd.1, hd.2]
      rw [if_neg hb]
      exact ⟨rfl, fun h => absurd h hd, fun _ => rfl⟩
  · intro col hcol hmon c hc x hx
    rw [preprocessData_cols] at hcol
    obtain ⟨col0, _, rfl⟩ := List.mem_map.1 hcol
    simp only at hc hmon
    obtain ⟨c0, _, rfl⟩ := List.mem_map.1 hc
    have hb : (col0.1 == "SALES_6M" || col0.1 == "COUPON_EXPENSE_6M") = true := by
      rcases hmon with h | h <;> simp [h]
    exact cleanCell_monetary_nonneg col0.1 c0 hb x hx
  · with_unfolding_all rfl

/-- C1 (evidence of the defect): `pd.cut` attaches the descending label list
to the ascending bins, so a LOWER probability gets the HIGHER decile —
`decile(0.1) = 10` and `decile(0.9) = 1` although `0.1 < 0.9` — contradicting
the docstring of `PurchasePredictor.predict` ("DECILE: ... 10=highest,
1=lowest") and the claimed monotone non-decreasing orientation. -/
theorem decile_orientation_eval :
    assignDecile (0.1 : ℚ) = some 10 ∧ assignDecile (0.9 : ℚ) = some 1 ∧
    (0.1 : ℚ) < 0.9 ∧ ¬((10 : ℕ) ≤ 1) :=
  ⟨by with_unfolding_all rfl, by with_unfolding_all rfl, by norm_num, by norm_num⟩

/-- C2 (counterexample): the claim says `decile(0.5) = 5`, but the code puts
`0.5` in the bin `(0.493293, 0.59348687]`, whose `pd.cut` label is `4`. -/
theorem decile_half_counterexample :
    assignDecile (0.5 : ℚ) = some 4 ∧ assignDecile (0.5 : ℚ) ≠ some 5 := by
  refine ⟨by with_unfolding_all rfl, ?_⟩
  rw [show assignDecile (0.5 : ℚ) = some 4 from by with_unfolding_all rfl]
  simp

/-- C2 (amended): the values the code actually produces. `decile(0.0)` is NaN
(the leftmost edge is excluded because `include_lowest` is not set);
`decile(1.0) = 1`; `decile(0.19662877) = 10` (a boundary probability joins the
lower bin, which carries the higher label); `decile(0.5) = 4`;
`decile(0.77079006) = 2`. -/
theorem decile_values_eval :
    assignDecile (0 : ℚ) = none ∧ assignDecile (1 : ℚ) = some 1 ∧
    assignDecile (0.19662877 : ℚ) = some 10 ∧ assignDecile (0.5 : ℚ) = some 4 ∧
    assignDecile (0.77079006 : ℚ) = some 2 :=
  ⟨by with_unfolding_all rfl, by with_unfolding_all rfl, by with_unfolding_all rfl,
   by with_unfolding_all rfl, by with_unfolding_all rfl⟩

/-- A one-customer frame carrying all 14 feature columns, the key columns and
the purchase date. -/
def testDf : DataFrame :=
  ⟨[("CUSTOMER_ID", [some 1001]), ("ADDRESS_ID", [some 2001]),
    ("PREVIOUS_PURCHASE", [some 20240101]),
    ("SALES_6M", [some 100]), ("FREQUENCY_6M", [some 2]),
    ("BUYS_Q_03", [some 1]), ("COUPON_Q_03", [some 0]),
    ("PH_MREDEEM90D", [some 0]), ("PH_PFREQ90D", [some 1]),
    ("PH_CFREQ90D", [some 0]), ("BBB_INSTORE_RFM_DECILE", [some 5]),
    ("BBB_ECOM_R_DECILE", [some 4]), ("BBB_OFFCOUPON_RFM_DECILE", [some 3]),
    ("NUM_PERIODS", [some 2]), ("NUM_PRODUCT_GROUPS", [some 3]),
    ("PRESENCE_OF_CHILD", [some 1]), ("MARITAL_STAT", [some 1])]⟩

/-- A classifier returning the out-of-range probability pair (-1/2, 3/2). -/
def outOfRangeModel : Model :=
  ⟨fun X => X.map (fun _ => (-(1/2 : ℚ), 3/2))⟩

set_option maxHeartbeats 2000000 in
/-- C7 (counterexample): fed a positive-class probability `3/2 ∉ [0,1]`,
`predict` raises no error at all — it succeeds, keeps `P = 3/2` unclamped and
leaves the decile NaN — so no `ValueOutOfRangeError` exists in the code. -/
theorem predict_out_of_range_no_error :
    isOk (predict ⟨some outOfRangeModel⟩ testDf) = true ∧
    getCol (outOf (predict ⟨some outOfRangeModel⟩ testDf)) "P"
      = some [some (3/2 : ℚ)] ∧
    getCol (outOf (predict ⟨some outOfRangeModel⟩ testDf)) "DECILE"
      = some [none] :=
  ⟨by with_unfolding_all rfl, by with_unfolding_all rfl, by with_unfolding_all rfl⟩

set_option maxHeartbeats 1000000 in
/-- C7 (amended): for a probability outside `[0,1]` the decile assigner does
not fail and does not clamp — `pd.cut` simply assigns no bin, so the decile is
NaN. -/
theorem assignDecile_out_of_range (p : ℚ) (hp : p < 0 ∨ 1 < p) :
    assignDecile p = none := by
  rcases hp with hp | hp <;>
  · simp only [assignDecile, DECILE_BINS, DECILE_LABELS, pdCutGo]
    split_ifs <;> first | rfl | (exfalso; obtain ⟨h1, h2⟩ := ‹_ ∧ _›; linarith)

/-- C7 (witness for the amended theorem at `p = 3/2`). -/
theorem assignDecile_out_of_range_witness :
    ((3/2 : ℚ) < 0 ∨ 1 < (3/2 : ℚ)) ∧ assignDecile (3/2 : ℚ) = none :=
  ⟨Or.inr (by norm_num), assignDecile_out_of_range (3/2) (Or.inr (by norm_num))⟩

theorem predict_no_model (data : DataFrame) :
    predict ⟨none⟩ data = Except.error PredictError.modelNotLoaded := rfl

theorem predict_missing (m : Model) (data : DataFrame)
    (hmiss : FEATURE_COLUMNS.filter (fun c => !(hasCol data c)) ≠ []) :
    predict ⟨some m⟩ data
      = Except.error (PredictError.missingFeatures
          (FEATURE_COLUMNS.filter (fun c => !(hasCol data c)))) := by
  unfold predict
  dsimp only
  rw [if_pos hmiss]

theorem predict_clean_cases (m : Model) (data : DataFrame)
    (hmiss : FEATURE_COLUMNS.filter (fun c => !(hasCol data c)) = []) :
    (∃ out, predict ⟨some m⟩ data = Except.ok out) ∨
    predict ⟨some m⟩ data = Except.error (PredictError.keyError "CUSTOMER_ID") ∨
    predict ⟨some m⟩ data = Except.error (PredictError.keyError "PREVIOUS_PURCHASE") := by
  unfold predict
  dsimp only
  rw [if_neg (by simp [hmiss])]
  rcases hA : getCol data "CUSTOMER_ID" with _ | cid <;>
    rcases hB : getCol data "PREVIOUS_PURCHASE" with _ | pp <;>
      simp

/-- C5: `predict` fails with the model-not-loaded error iff the classifier is
not loaded; when it is loaded, it fails with the missing-feature error —
naming exactly the absent feature columns — iff any of the 14 required
features is absent; that check happens before the classifier is invoked (the
outcome on missing features does not depend on which model is loaded); and
when the model is loaded and no feature is missing, neither of those two
errors is raised (only the pandas key lookup for the two carried columns can
still fail). -/
theorem predict_error_conditions (pred : PurchasePredictor) (data : DataFrame) :
    ((predict pred data = Except.error PredictError.modelNotLoaded)
        ↔ pred.model = none) ∧
    (∀ m, pred.model = some m → ∀ l,
        (predict pred data = Except.error (PredictError.missingFeatures l)
          ↔ (l = FEATURE_COLUMNS.filter (fun c => !(hasCol data c)) ∧ l ≠ []))) ∧
    (∀ m₁ m₂ : Model,
        FEATURE_COLUMNS.filter (fun c => !(hasCol data c)) ≠ [] →
        predict ⟨some m₁⟩ data = predict ⟨some m₂⟩ data) ∧
    (∀ m, pred.model = some m →
        FEATURE_COLUMNS.filter (fun c => !(hasCol data c)) = [] →
        ∀ e, predict pred data = Except.error e →
          ∃ c, e = PredictError.keyError c) := by
  obtain ⟨mo⟩ := pred
  refine ⟨?_, ?_, ?_, ?_⟩
  · cases mo with
    | none => simp [predict_no_model]
    | some m =>
      simp only [Option.some_ne_none, iff_false]
      intro h
      by_cases hmiss : FEATURE_COLUMNS.filter (fun c => !(hasCol data c)) = []
      · rcases predict_clean_cases m data hmiss with ⟨out, hout⟩ | hout | hout <;>
          rw [hout] at h <;> cases h
      · rw [predict_missing m data hmiss] at h
        cases h
  · intro m hm l
    cases mo with
    | none => cases hm
    | some m' =>
      by_cases hmiss : FEATURE_COLUMNS.filter (fun c => !(hasCol data c)) = []
      · constructor
        · intro h
          rcases predict_clean_cases m' data hmiss with ⟨out, hout⟩ | hout | hout <;>
            rw [hout] at h <;> cases h
        · rintro ⟨rfl, hne⟩
          exact absurd hmiss hne
      · rw [predict_missing m' data hmiss]
        constructor
        · intro h
          injection h with h'
          injection h' with h''
          exact ⟨h''.symm, h'' ▸ hmiss⟩
        · rintro ⟨rfl, _⟩
          rfl
  · intro m₁ m₂ hmiss
    rw [predict_missing m₁ data hmiss, predict_missing m₂ data hmiss]
  · intro m hm hmiss e he
    cases mo with
    | none => cases hm
    | some m' =>
      rcases predict_clean_cases m' data hmiss with ⟨out, hout⟩ | hout | hout <;>
        rw [hout] at he
      · cases he
      · injection he with h'
        exact ⟨"CUSTOMER_ID", h'.symm⟩
      · injection he with h'
        exact ⟨"PREVIOUS_PURCHASE", h'.symm⟩

theorem hasCol_getCol {df : DataFrame} {n : String} (h : hasCol df n = true) :
    ∃ cs, getCol df n = some cs := by
  unfold hasCol at h
  unfold getCol
  have hs : (df.cols.find? (fun c => c.1 == n)).isSome :=
    List.find?_isSome.2 (List.any_eq_true.1 h)
  rcases hf : df.cols.find? (fun c => c.1 == n) with _ | c
  · rw [hf] at hs
    cases hs
  · exact ⟨c.2, by rw [hf]; rfl⟩

theorem predict_ok_eq (m : Model) (data : DataFrame) (cid pp : List Cell)
    (hmiss : FEATURE_COLUMNS.filter (fun c => !(hasCol data c)) = [])
    (hA : getCol data "CUSTOMER_ID" = some cid)
    (hB : getCol data "PREVIOUS_PURCHASE" = some pp) :
    predict ⟨some m⟩ data = Except.ok
      ⟨[("CUSTOMER_ID", cid), ("PREVIOUS_PURCHASE", pp),
        ("P", ((m.predictProba (featureMatrix data)).map Prod.snd).map some),
        ("DECILE", ((m.predictProba (featureMatrix data)).map Prod.snd).map
          (fun p => (assignDecile p).map (fun l => ((l : ℕ) : ℚ))))]⟩ := by
  unfold predict
  dsimp only
  rw [if_neg (by simp [hmiss]), hA, hB]

/-- C6: when the classifier is loaded, the cleaned input carries all 14
feature columns with no missing cell (plus the two carried identity columns),
and the classifier returns one probability pair per row with positive-class
mass in [0,1], `predict` succeeds; its output carries the input's CUSTOMER_ID
and PREVIOUS_PURCHASE columns unchanged (hence row i corresponds to input
record i), every output column has exactly as many rows as the input, and
every retained positive-class probability lies in [0,1]. -/
theorem predict_success_spec (pred : PurchasePredictor) (m : Model)
    (data : DataFrame) (n : ℕ)
    (hm : pred.model = some m)
    (hwf : ∀ col ∈ data.cols, col.2.length = n)
    (_hclean : ∀ col ∈ data.cols, ∀ c ∈ col.2, c.isSome = true)
    (hfeat : ∀ c ∈ FEATURE_COLUMNS, hasCol data c = true)
    (hcid : hasCol data "CUSTOMER_ID" = true)
    (hpp : hasCol data "PREVIOUS_PURCHASE" = true)
    (hplen : (m.predictProba (featureMatrix data)).length
        = (featureMatrix data).length)
    (hprange : ∀ q ∈ m.predictProba (featureMatrix data), 0 ≤ q.2 ∧ q.2 ≤ 1) :
    isOk (predict pred data) = true ∧
    getCol (outOf (predict pred data)) "CUSTOMER_ID"
      = getCol data "CUSTOMER_ID" ∧
    getCol (outOf (predict pred data)) "PREVIOUS_PURCHASE"
      = getCol data "PREVIOUS_PURCHASE" ∧
    (∀ col ∈ (outOf (predict pred data)).cols, col.2.length = n) ∧
    (∀ pcells, getCol (outOf (predict pred data)) "P" = some pcells →
        ∀ c ∈ pcells, ∃ p, c = some p ∧ 0 ≤ p ∧ p ≤ 1) := by
  obtain ⟨mo⟩ := pred
  simp only at hm
  subst hm
  obtain ⟨cid, hA⟩ := hasCol_getCol hcid
  obtain ⟨pp, hB⟩ := hasCol_getCol hpp
  have hmiss : FEATURE_COLUMNS.filter (fun c => !(hasCol data c)) = [] := by
    rw [List.filter_eq_nil_iff]
    intro c hc
    simp [hfeat c hc]
  rw [predict_ok_eq m data cid pp hmiss hA hB]
  have hcidlen : cid.length = n := hwf _ (getCol_mem hA)
  have hpplen : pp.length = n := hwf _ (getCol_mem hB)
  have hnrows : nRows data = n := by
    unfold nRows
    rcases hcols : data.cols with _ | ⟨c0, rest⟩
    · have := getCol_mem hA
      rw [hcols] at this
      cases this
    · exact hwf c0 (by rw [hcols]; exact List.mem_cons_self c0 rest)
  have hp1len : ((m.predictProba (featureMatrix data)).map Prod.snd).length = n := by
    rw [List.length_map, hplen]
    simp [featureMatrix, hnrows]
  refine ⟨rfl, ?_, ?_, ?_, ?_⟩
  · rw [hA]
    rfl
  · rw [hB]
    rfl
  · intro col hcol
    simp only [outOf, List.mem_cons, List.not_mem_nil, or_false] at hcol
    rcases hcol with rfl | rfl | rfl | rfl
    · exact hcidlen
    · exact hpplen
    · simpa using hp1len
    · simpa using hp1len
  · intro pcells hpc c hc
    replace hpc : List.map (some ∘ Prod.snd) (m.predictProba (featureMatrix data))
        = pcells := by
      simpa [outOf, getCol] using hpc
    subst hpc
    obtain ⟨q, hq, rfl⟩ := List.mem_map.1 hc
    exact ⟨q.2, rfl, (hprange q hq).1, (hprange q hq).2⟩

/-- A classifier that assigns every row the probability pair (1/2, 1/2). -/
def halfModel : Model :=
  ⟨fun X => X.map (fun _ => (1/2, 1/2))⟩

/-- C6 (witness): the success postconditions hold on a concrete one-customer
frame scored by `halfModel`. -/
theorem predict_success_spec_witness :
    isOk (predict ⟨some halfModel⟩ testDf) = true ∧
    getCol (outOf (predict ⟨some halfModel⟩ testDf)) "CUSTOMER_ID"
      = getCol testDf "CUSTOMER_ID" ∧
    getCol (outOf (predict ⟨some halfModel⟩ testDf)) "PREVIOUS_PURCHASE"
      = getCol testDf "PREVIOUS_PURCHASE" ∧
    (∀ col ∈ (outOf (predict ⟨some halfModel⟩ testDf)).cols, col.2.length = 1) ∧
    (∀ pcells, getCol (outOf (predict ⟨some halfModel⟩ testDf)) "P" = some pcells →
        ∀ c ∈ pcells, ∃ p, c = some p ∧ 0 ≤ p ∧ p ≤ 1) :=
  predict_success_spec ⟨some halfModel⟩ halfModel testDf 1 rfl
    (by decide) (by decide) (by decide) (by decide) (by decide)
    (by rfl)
    (by
      intro q hq
      simp only [halfModel, List.mem_map] at hq
      obtain ⟨x, _, rfl⟩ := hq
      exact ⟨by norm_num, by norm_num⟩)

theorem setStep (s t : List DataFrame) (L : ℕ) (f : DataFrame → DataFrame)
    (v : DataFrame)
    (ht : t = s.set L (f (s.getD L ⟨[]⟩)))
    (hv : s[L]? = some v) (hlen : L < s.length) :
    t[L]? = some (f v) ∧ (∀ j, j ≠ L → t[j]? = s[j]?) ∧ t.length = s.length := by
  have hgd : s.getD L ⟨[]⟩ = v := by
    rw [List.getD_eq_getElem?_getD, hv]
    rfl
  subst ht
  refine ⟨?_, ?_, List.length_set s L _⟩
  · rw [hgd]
    exact List.getElem?_set_self hlen
  · intro j hj
    exact List.getElem?_set_ne (Ne.symm hj)

/-- C9: `_preprocess_data` never mutates its caller's table.  In the store
model — a list of frames, the in-place steps mutating the frame at an index —
the procedure copies the caller's frame to a fresh index, cleans the copy in
place, and returns that index: afterwards every pre-existing frame (the
caller's input in particular) is unchanged, and the only effect is the one new
frame, which equals the pure cleaning `preprocessData` of the input. -/
theorem preprocess_frame (h : List DataFrame) (r : ℕ) (_hr : r < h.length) :
    (preprocessProc h r).1.length = h.length + 1 ∧
    (preprocessProc h r).2 = h.length ∧
    (∀ i, i < h.length →
        (preprocessProc h r).1.getD i ⟨[]⟩ = h.getD i ⟨[]⟩) ∧
    (preprocessProc h r).1.getD (preprocessProc h r).2 ⟨[]⟩
      = preprocessData (h.getD r ⟨[]⟩) := by
  have hproc : preprocessProc h r
      = (convIP (fixIP (fillIP (h ++ [h.getD r ⟨[]⟩]) h.length) h.length) h.length,
         h.length) := rfl
  rw [hproc]
  dsimp only
  have h0len : (h ++ [h.getD r ⟨[]⟩]).length = h.length + 1 := by simp
  have h0L : (h ++ [h.getD r ⟨[]⟩])[h.length]? = some (h.getD r ⟨[]⟩) := by
    rw [List.getElem?_append_right (le_refl h.length)]
    simp
  have h0j : ∀ j, j < h.length → (h ++ [h.getD r ⟨[]⟩])[j]? = h[j]? :=
    fun j hj => List.getElem?_append_left hj
  obtain ⟨h1L, h1j, h1len⟩ :=
    setStep (h ++ [h.getD r ⟨[]⟩]) (fillIP (h ++ [h.getD r ⟨[]⟩]) h.length)
      h.length fillMissingValues (h.getD r ⟨[]⟩) rfl h0L (by omega)
  obtain ⟨h2L, h2j, h2len⟩ :=
    setStep (fillIP (h ++ [h.getD r ⟨[]⟩]) h.length)
      (fixIP (fillIP (h ++ [h.getD r ⟨[]⟩]) h.length) h.length)
      h.length fixNegativeValues (fillMissingValues (h.getD r ⟨[]⟩)) rfl h1L
      (by rw [h1len]; omega)
  obtain ⟨h3L, h3j, h3len⟩ :=
    setStep (fixIP (fillIP (h ++ [h.getD r ⟨[]⟩]) h.length) h.length)
      (convIP (fixIP (fillIP (h ++ [h.getD r ⟨[]⟩]) h.length) h.length) h.length)
      h.length convertDataTypes
      (fixNegativeValues (fillMissingValues (h.getD r ⟨[]⟩))) rfl h2L
      (by rw [h2len, h1len]; omega)
  simp only [List.getD_eq_getElem?_getD] at h0len h0L h0j h1L h1j h1len h2L h2j h2len h3L h3j h3len ⊢
  refine ⟨by rw [h3len, h2len, h1len, h0len], trivial, ?_, ?_⟩
  · intro i hi
    rw [h3j i (by omega), h2j i (by omega), h1j i (by omega), h0j i hi]
  · rw [h3L]
    rfl

/-- C9 (witness): the frame property at a concrete one-frame store. -/
theorem preprocess_frame_witness :
    (preprocessProc [testDf] 0).1.length = 1 + 1 ∧
    (preprocessProc [testDf] 0).2 = 1 ∧
    (∀ i, i < ([testDf] : List DataFrame).length →
        (preprocessProc [testDf] 0).1.getD i ⟨[]⟩
          = ([testDf] : List DataFrame).getD i ⟨[]⟩) ∧
    (preprocessProc [testDf] 0).1.getD (preprocessProc [testDf] 0).2 ⟨[]⟩
      = preprocessData (([testDf] : List DataFrame).getD 0 ⟨[]⟩) :=
  preprocess_frame [testDf] 0 (by norm_num)

theorem hasCol_fillMissing (df : DataFrame) (n : String) :
    hasCol (fillMissingValues df) n = hasCol df n :=
  hasCol_map df.cols
    (fun col => (col.1, col.2.map (fillnaCell (fillValueFor col.1))))
    (fun _ => rfl) n

theorem hasCol_fixNeg (df : DataFrame) (n : String) :
    hasCol (fixNegativeValues df) n = hasCol df n :=
  hasCol_map df.cols
    (fun col =>
      if col.1 == "SALES_6M" || col.1 == "COUPON_EXPENSE_6M"
      then (col.1, col.2.map clampNegCell) else col)
    (fun col => by dsimp only; split_ifs <;> rfl) n

/-- The legacy cleaning, rephrased with the `DataLoader` stage names: the two
fill cascades, the clamp maps and the astype column lists coincide term for
term. -/
theorem legacyClean_eq (df : DataFrame) :
    Scorer.legacyClean df =
      (if hasCol (fillMissingValues df) "SALES_6M"
          && hasCol (fillMissingValues df) "COUPON_EXPENSE_6M" then
        if (Scorer.key ++ Scorer.key1).all
            (hasCol (fixNegativeValues (fillMissingValues df))) then
          some (convertDataTypes (fixNegativeValues (fillMissingValues df)))
        else none
      else none) := rfl

/-- C10: on any table carrying the two monetary columns and the key/int
columns, the legacy `data_upload` cleaning (`scorer.py`) and the refactored
`DataLoader._preprocess_data` produce the same cleaned table (the legacy code
raising no exception). -/
theorem legacy_refines_loader (df : DataFrame)
    (h1 : hasCol df "SALES_6M" = true)
    (h2 : hasCol df "COUPON_EXPENSE_6M" = true)
    (h3 : ∀ c ∈ Scorer.key ++ Scorer.key1, hasCol df c = true) :
    Scorer.legacyClean df = some (preprocessData df) := by
  rw [legacyClean_eq]
  rw [hasCol_fillMissing df "SALES_6M", hasCol_fillMissing df "COUPON_EXPENSE_6M",
    h1, h2]
  have hall : (Scorer.key ++ Scorer.key1).all
      (hasCol (fixNegativeValues (fillMissingValues df))) = true :=
    List.all_eq_true.2 (fun c hc => by
      rw [hasCol_fixNeg, hasCol_fillMissing]
      exact h3 c hc)
  rw [hall]
  rfl

/-- A one-customer raw frame carrying the key columns and every
`astype('int')` column, with a negative monetary value and a missing decile. -/
def testDf10 : DataFrame :=
  ⟨[("CUSTOMER_ID", [some 1001]), ("ADDRESS_ID", [some 2001]),
    ("SALES_6M", [some (-50)]), ("COUPON_EXPENSE_6M", [some 7]),
    ("BUYS_Q_03", [some 1]), ("COUPON_Q_03", [some 0]),
    ("PH_MREDEEM90D", [some 0]), ("PH_PFREQ90D", [some 1]),
    ("PH_CFREQ90D", [some 0]), ("BBB_INSTORE_RFM_DECILE", [none]),
    ("BBB_ECOM_R_DECILE", [some 4]), ("BBB_OFFCOUPON_RFM_DECILE", [some 3]),
    ("PCT_TXNS_ON_MKD_DISC", [some 12])]⟩

/-- C10 (witness): the legacy and refactored cleanings agree on a concrete
raw frame with a negative `SALES_6M` and a missing RFM decile. -/
theorem legacy_refines_loader_witness :
    hasCol testDf10 "SALES_6M" = true ∧
    hasCol testDf10 "COUPON_EXPENSE_6M" = true ∧
    (∀ c ∈ Scorer.key ++ Scorer.key1, hasCol testDf10 c = true) ∧
    Scorer.legacyClean testDf10 = some (preprocessData testDf10) :=
  ⟨by decide, by decide, by decide,
   legacy_refines_loader testDf10 (by decide) (by decide) (by decide)⟩

end TimeToShop
